import Mathlib

/-!
Shallow embedding of `multi_image_loader.py`, the single source file of the
LoadImageBatchUpload repository, together with theorems checking the
specification's claims about it.

Conventions of the embedding:

* A decoded image is an RGB pixel grid (`Img`): the image library is a black
  box; every image this node handles is converted to RGB, so we model decoded
  images as RGB grids directly, with integer channels.
* Tensors are modelled as nested lists of exact rationals: the numeric content
  of the claims (division by 255, range [0,1], equality of slices across code
  paths) is about the values `c / 255.0`, which we track exactly.
* Python exceptions become an error type `LoadError`; a call that raises is a
  `.error`, so “no partial output” is the shape of the `Except` result.
* The filesystem and the host's path helpers are a `Host` structure passed
  explicitly; `fs` maps a path to the decoded image when the file exists.
-/

/-- An RGB pixel with integer channel values (0–255 for real images). -/
structure RGB where
  r : Nat
  g : Nat
  b : Nat
deriving DecidableEq, Repr

/-- A decoded image: rows of pixels.  `multi_image_loader.py` forces RGB via
`img.convert("RGB")`, so the grid is already RGB here. -/
structure Img where
  pix : List (List RGB)
deriving DecidableEq, Repr

/-- Number of rows (PIL `img.height`). -/
def Img.height (i : Img) : Nat := i.pix.length

/-- Number of columns, read off the first row (PIL `img.width`). -/
def Img.width (i : Img) : Nat := (i.pix.headD []).length

/-- PIL `img.size` is `(width, height)` — note the order, used at line 124
of the source (`w0, h0 = pil_images[0].size`). -/
def Img.size (i : Img) : Nat × Nat := (i.width, i.height)

/-- Rows all have the declared width and the image is non-degenerate, as is
true of any image a codec produces. -/
def Img.WF (i : Img) : Prop :=
  0 < i.height ∧ 0 < i.width ∧ ∀ row ∈ i.pix, row.length = i.width

/-- All channel values fit in a byte, as for any decoded 8-bit image. -/
def Img.Byte (i : Img) : Prop :=
  ∀ row ∈ i.pix, ∀ p ∈ row, p.r ≤ 255 ∧ p.g ≤ 255 ∧ p.b ≤ 255

/-- A 4-D tensor `(N, H, W, C)` as nested lists of exact rationals. -/
abbrev Tensor := List (List (List (List ℚ)))

/-- The `(H, W, 3)` array of one image: each pixel becomes
`[r/255, g/255, b/255]` — the `np.array(img).astype(np.float32) / 255.0`
step of `pil_to_comfy_tensor`. -/
def frameOf (img : Img) : List (List (List ℚ)) :=
  img.pix.map (fun row => row.map (fun p =>
    [(p.r : ℚ) / 255, (p.g : ℚ) / 255, (p.b : ℚ) / 255]))

/-- The function `pil_to_comfy_tensor` (source lines 12–25): scale channels to [0,1] and
insert the leading batch dimension (`t.unsqueeze(0)`), giving `(1, H, W, 3)`.
The `isinstance` guard is discharged by typing: the argument is an `Img`. -/
def pil_to_comfy_tensor (img : Img) : Tensor :=
  [frameOf img]

/-- The shape `(N, H, W, C)` of a nested-list tensor, reading each inner
dimension off the first element, as `t.shape` would report for the
well-formed tensors this program builds. -/
def Tensor.shape (t : Tensor) : Nat × Nat × Nat × Nat :=
  (t.length,
   (t.headD []).length,
   ((t.headD []).headD []).length,
   (((t.headD []).headD []).headD []).length)

/-- Python `t.shape[1]` — the height component. -/
def Tensor.shape1 (t : Tensor) : Nat := (t.headD []).length

/-- Python `t.shape[2]` — the width component. -/
def Tensor.shape2 (t : Tensor) : Nat := ((t.headD []).headD []).length

/-- The PIL resampling filters used by `resize_pil`. -/
inductive PILFilter
  | NEAREST
  | BILINEAR
  | BICUBIC
  | LANCZOS
deriving DecidableEq, Repr

/-- The mode-name → filter dictionary literal of `resize_pil`
(source lines 32–37). -/
def resampleTable : List (String × PILFilter) :=
  [("nearest", PILFilter.NEAREST),
   ("bilinear", PILFilter.BILINEAR),
   ("bicubic", PILFilter.BICUBIC),
   ("lanczos", PILFilter.LANCZOS)]

/-- The `.get(mode, resampling.LANCZOS)` lookup of `resize_pil`: dictionary
lookup with LANCZOS as the default for unknown mode names. -/
def selectedFilter (mode : String) : PILFilter :=
  (resampleTable.lookup mode).getD PILFilter.LANCZOS

/-- PIL `img.resize(size_wh, resample=...)`.  The image library's resize is an
external black box; the spec fixes only that it returns an image of the
target `(width, height)` produced with the given filter.  We use a concrete
executable sampling as the stand-in pixel content; only the output
dimensions of this definition are relied on by the theorems. -/
def Img.resize (img : Img) (size_wh : Nat × Nat) (f : PILFilter) : Img :=
  { pix := (List.range size_wh.2).map (fun y =>
      (List.range size_wh.1).map (fun x =>
        match f with
        | _ => (img.pix.getD (y * img.height / size_wh.2) []).getD
                 (x * img.width / size_wh.1) ⟨0, 0, 0⟩)) }

/-- The function `resize_pil` (source lines 28–38): select the filter by the dictionary
lookup (defaulting to LANCZOS) and resize.  Total — no mode name raises. -/
def resize_pil (img : Img) (size_wh : Nat × Nat) (mode : String) : Img :=
  Img.resize img size_wh (selectedFilter mode)

/-- The Python exceptions `load` can raise. -/
inductive LoadError
  | valueError (msg : String)
  | typeError (msg : String)
  | fileNotFoundError (msg : String)
  | indexError (msg : String)
  | jsonDecodeError (doc : String)
deriving DecidableEq, Repr

/-- A dynamically-typed Python value as delivered by the widget (and as
produced by `json.loads`). -/
inductive PyVal
  | none
  | str (s : String)
  | int (n : Int)
  | list (xs : List PyVal)

mutual

/-- Python `repr` of a value, as interpolated by the f-string at source
line 100. -/
def PyVal.pyrepr : PyVal → String
  | .none => "None"
  | .str s => "'" ++ s ++ "'"
  | .int n => toString n
  | .list xs => "[" ++ PyVal.pyreprList xs ++ "]"

/-- Python `repr` of the comma-separated elements of a list. -/
def PyVal.pyreprList : List PyVal → String
  | [] => ""
  | [x] => PyVal.pyrepr x
  | x :: xs => PyVal.pyrepr x ++ ", " ++ PyVal.pyreprList xs

end

/-- Python `type(x)` as interpolated into the error message. -/
def PyVal.typeName : PyVal → String
  | .none => "<class 'NoneType'>"
  | .str _ => "<class 'str'>"
  | .int _ => "<class 'int'>"
  | .list _ => "<class 'list'>"

/-- Checks `isinstance(x, str)` for each element, collecting the strings: `some`
exactly when the value is a list whose elements are all strings — the
`isinstance(images, list) and all(isinstance(x, str) ...)` check. -/
def asStringList : PyVal → Option (List String)
  | .list xs => xs.mapM (fun v => match v with
      | .str s => some s
      | _ => Option.none)
  | _ => Option.none

/-- Characters Python's `str.strip` removes. -/
def isPyWs (c : Char) : Bool :=
  c = ' ' || c = '\t' || c = '\n' || c = '\r' || c = '\x0b' || c = '\x0c'

/-- Python `s.strip()`: drop leading and trailing whitespace.  Implemented on
the character list so it evaluates by kernel reduction. -/
def pyStrip (s : String) : String :=
  ⟨((s.data.dropWhile isPyWs).reverse.dropWhile isPyWs).reverse⟩

/-- Python `s.startswith(p)`, on character lists. -/
def strStartsWith (s p : String) : Bool :=
  p.data.isPrefixOf s.data

/-- Python `s.endswith(p)`, on character lists. -/
def strEndsWith (s p : String) : Bool :=
  p.data.reverse.isPrefixOf s.data.reverse

/-- Characters JSON treats as whitespace between tokens. -/
def isJsonWs (c : Char) : Bool :=
  c = ' ' || c = '\t' || c = '\n' || c = '\r'

/-- Drop leading JSON whitespace. -/
def skipWs : List Char → List Char
  | [] => []
  | c :: cs => if isJsonWs c then skipWs cs else c :: cs

/-- Parse the body of a JSON string literal after its opening quote, up to the
closing quote (escape sequences rejected: the filenames of this node need
none). -/
def parseStrBody : List Char → Option (String × List Char)
  | [] => Option.none
  | c :: cs =>
    if c = '"' then some ("", cs)
    else if c = '\\' then Option.none
    else match parseStrBody cs with
      | some (s, rest) => some (String.mk (c :: s.data), rest)
      | Option.none => Option.none

/-- Parse one or more comma-separated JSON string literals followed by the
closing bracket.  `fuel` bounds the recursion; any value larger than the
number of items suffices. -/
def parseItems : Nat → List Char → Option (List String × List Char)
  | 0, _ => Option.none
  | fuel + 1, cs =>
    match skipWs cs with
    | '"' :: cs1 =>
      match parseStrBody cs1 with
      | some (s, cs2) =>
        match skipWs cs2 with
        | ',' :: cs3 =>
          match parseItems fuel cs3 with
          | some (ss, rest) => some (s :: ss, rest)
          | Option.none => Option.none
        | ']' :: cs3 => some ([s], cs3)
        | _ => Option.none
      | Option.none => Option.none
    | _ => Option.none

/-- Modelled from the spec: `json.loads` is the standard library's JSON
decoder, external to this repository.  The spec relies on it only to
“parse it as JSON into a list of strings”, so this model accepts exactly
JSON arrays of escape-free string literals (and the empty array) and
signals a decode failure on anything else. -/
def jsonLoads (doc : String) : Option PyVal :=
  match skipWs doc.data with
  | '[' :: cs =>
    match skipWs cs with
    | ']' :: rest =>
      if (skipWs rest).isEmpty then some (.list []) else Option.none
    | _ =>
      match parseItems (doc.length + 1) cs with
      | some (ss, rest) =>
        if (skipWs rest).isEmpty then some (.list (ss.map PyVal.str))
        else Option.none
      | Option.none => Option.none
  | _ => Option.none

/-- The message of the `ValueError` at source line 86. -/
def noImagesMsg : String := "No images provided."

/-- The message of the `TypeError` at source line 100, interpolating the
value's type and `repr`. -/
def typeErrMsg (v : PyVal) : String :=
  "`images` must be a list[str] (or JSON string). Got: "
    ++ v.typeName ++ " " ++ v.pyrepr

/-- The `isinstance(images, list) and all(isinstance(x, str) ...)` gate of
source lines 99–100: pass the string list through, or raise the
`TypeError`. -/
def checkList (v : PyVal) : Except LoadError (List String) :=
  match asStringList v with
  | some names => .ok names
  | Option.none => .error (.typeError (typeErrMsg v))

/-- Input normalization, source lines 85–100: `None` raises the
`ValueError`; a string is stripped, and parsed as JSON when the stripped
form is bracketed, otherwise the ORIGINAL string is wrapped in a
one-element list (`images = [images]` at line 97 wraps the unstripped
value); finally the list-of-strings gate runs on whatever value resulted. -/
def normalizeImages : PyVal → Except LoadError (List String)
  | .none => .error (.valueError noImagesMsg)
  | .str s =>
    let t := pyStrip s
    if strStartsWith t "[" && strEndsWith t "]" then
      match jsonLoads t with
      | some v => checkList v
      | Option.none => .error (.jsonDecodeError t)
    else
      checkList (.list [.str s])
  | v => checkList v

/-- The host environment: `folder_paths.get_annotated_filepath`,
`folder_paths.get_input_directory`, and the filesystem.  `fs p = some img`
models “a file exists at `p` and decodes to `img`”. -/
structure Host where
  annotated : String → String
  inputDir : String
  fs : String → Option Img

/-- POSIX `os.path.join` for two components, as used at source line 108. -/
def joinPath (d n : String) : String :=
  if strStartsWith n "/" then n
  else if d = "" || strEndsWith d "/" then d ++ n
  else d ++ "/" ++ n

/-- The message of the `FileNotFoundError` at source line 112.  Note it
interpolates only `name` and the first attempted path `img_path`. -/
def fileNotFoundMsg (name path : String) : String :=
  "Image not found: " ++ name ++ " (looked for " ++ path ++ ")"

/-- Path resolution for one filename, source lines 104–114: annotated path
first; if it does not exist, fall back to the filename joined under the
input directory; raise `FileNotFoundError` when neither exists.  Opening
the file that exists yields its decoded image. -/
def resolveOne (host : Host) (name : String) : Except LoadError Img :=
  let img_path := host.annotated name
  match host.fs img_path with
  | some img => .ok img
  | Option.none =>
    let img_path2 := joinPath host.inputDir name
    match host.fs img_path2 with
    | some img => .ok img
    | Option.none => .error (.fileNotFoundError (fileNotFoundMsg name img_path))

/-- The `for name in images` loop of source lines 104–114: resolve each
name in order, aborting at the first failure. -/
def resolveAll (host : Host) : List String → Except LoadError (List Img)
  | [] => .ok []
  | n :: ns =>
    match resolveOne host n with
    | .error e => .error e
    | .ok img =>
      match resolveAll host ns with
      | .error e => .error e
      | .ok imgs => .ok (img :: imgs)

/-- The message of the `ValueError` at source lines 132–135 (Python
implicit string concatenation of the two adjacent literals). -/
def mismatchMsg : String :=
  "Images have different sizes; enable resize_to_first=True or use the image_list output."

/-- Batch assembly, source lines 120–136.  One image: the batch is
`image_list[0]`.  Otherwise, resizing enabled: every image is resized to
the first image's `size` and the tensors concatenated (`pil_images[0]` on
an empty list raises `IndexError`).  Otherwise: the `(shape[1], shape[2])`
pairs must be all equal (`len(set(shapes)) != 1` raises the `ValueError`),
then the unresized tensors are concatenated. -/
def buildBatch (pil_images : List Img) (image_list : List Tensor)
    (resize_to_first : Bool) (resize_mode : String) : Except LoadError Tensor :=
  if pil_images.length == 1 then
    .ok (image_list.headD [])
  else if resize_to_first then
    match pil_images with
    | [] => .error (.indexError "list index out of range")
    | img0 :: _ =>
      let resized := pil_images.map (fun img => resize_pil img img0.size resize_mode)
      let batch_tensors := resized.map pil_to_comfy_tensor
      .ok batch_tensors.flatten
  else
    let shapes := image_list.map (fun t => (t.shape1, t.shape2))
    if shapes.dedup.length != 1 then
      .error (.valueError mismatchMsg)
    else
      .ok image_list.flatten

/-- The method `MultiImageDragDropLoader.load`, source lines 76–138: normalize the
widget value, resolve and decode every file, build the always-unresized
per-image tensor list, assemble the batch, and return the 3-tuple
`(image_batch, image_list, images)`. -/
def load (host : Host) (images : PyVal)
    (resize_to_first : Bool := true) (resize_mode : String := "lanczos") :
    Except LoadError (Tensor × List Tensor × List String) :=
  match normalizeImages images with
  | .error e => .error e
  | .ok names =>
    match resolveAll host names with
    | .error e => .error e
    | .ok pil_images =>
      let image_list := pil_images.map pil_to_comfy_tensor
      match buildBatch pil_images image_list resize_to_first resize_mode with
      | .error e => .error e
      | .ok image_batch => .ok (image_batch, image_list, names)

/-- Whether `needle` occurs as a contiguous substring of `hay` (used to check what an
error message names). -/
def containsSub (hay needle : String) : Bool :=
  (List.range (hay.length + 1)).any
    (fun i => needle.data.isPrefixOf (hay.data.drop i))

/-- Whether a raised error is a Python `ValueError`. -/
def LoadError.isValueError : LoadError → Bool
  | .valueError _ => true
  | _ => false

/-- Whether a call raised a `ValueError` (rather than returning or raising
another exception class). -/
def raisedValueError {α : Type} : Except LoadError α → Bool
  | .error e => e.isValueError
  | .ok _ => false

/-- A 2×2 solid-colour test image (every pixel `(10, 20, 30)`). -/
def imgA : Img :=
  ⟨[[⟨10, 20, 30⟩, ⟨10, 20, 30⟩], [⟨10, 20, 30⟩, ⟨10, 20, 30⟩]]⟩

/-- A 1×1 test image with pixel `(1, 2, 3)` — a different size from `imgA`. -/
def imgB : Img := ⟨[[⟨1, 2, 3⟩]]⟩

/-- A 2×2 test image distinct from `imgA` but of the same size. -/
def imgC : Img :=
  ⟨[[⟨0, 0, 0⟩, ⟨255, 255, 255⟩], [⟨255, 0, 0⟩, ⟨0, 0, 255⟩]]⟩

/-- A concrete host for witnesses: `a.png` exists at its annotated path,
`b.png` exists only under the input directory `/inp` (exercising the
fallback), `c.png` exists at its annotated path, and nothing else exists. -/
def demoHost : Host :=
  { annotated := fun n => "/anno/" ++ n
    inputDir := "/inp"
    fs := fun p =>
      if p = "/anno/a.png" then some imgA
      else if p = "/inp/b.png" then some imgB
      else if p = "/anno/c.png" then some imgC
      else Option.none }

/-- Resolving a list of names yields one decoded image per name. -/
theorem resolveAll_length (host : Host) (ns : List String) (imgs : List Img)
    (h : resolveAll host ns = .ok imgs) : imgs.length = ns.length := by
  induction ns generalizing imgs with
  | nil =>
    simp only [resolveAll] at h
    cases h
    rfl
  | cons n ns ih =>
    simp only [resolveAll] at h
    cases h1 : resolveOne host n with
    | error e => rw [h1] at h; exact absurd h (by simp)
    | ok img =>
      rw [h1] at h
      cases h2 : resolveAll host ns with
      | error e => rw [h2] at h; exact absurd h (by simp)
      | ok rest =>
        rw [h2] at h
        cases h
        simp [ih rest h2]

/-- Resolution is positional: the i-th decoded image comes from resolving the
i-th filename. -/
theorem resolveAll_getD (host : Host) (ns : List String) (imgs : List Img)
    (h : resolveAll host ns = .ok imgs) :
    ∀ i, i < ns.length →
      resolveOne host (ns.getD i "") = .ok (imgs.getD i ⟨[]⟩) := by
  induction ns generalizing imgs with
  | nil => intro i hi; simp at hi
  | cons n ns ih =>
    simp only [resolveAll] at h
    cases h1 : resolveOne host n with
    | error e => rw [h1] at h; exact absurd h (by simp)
    | ok img =>
      rw [h1] at h
      cases h2 : resolveAll host ns with
      | error e => rw [h2] at h; exact absurd h (by simp)
      | ok rest =>
        rw [h2] at h
        cases h
        intro i hi
        cases i with
        | zero => simpa using h1
        | succ j =>
          have hj : j < ns.length := by simpa using hi
          simpa using ih rest h2 j hj

/-- Flattening a list of singleton lists is just mapping. -/
theorem flatten_map_singleton {α β : Type} (f : α → β) (l : List α) :
    (l.map (fun x => [f x])).flatten = l.map f := by
  induction l with
  | nil => rfl
  | cons x xs ih => simp [ih]

/-- For a nonempty list, having exactly one distinct element (the code's
`len(set(shapes)) == 1`) says precisely that all elements are equal. -/
theorem dedup_length_one_iff {α : Type} [DecidableEq α] (l : List α)
    (hne : l ≠ []) :
    l.dedup.length = 1 ↔ ∀ a ∈ l, ∀ b ∈ l, a = b := by
  constructor
  · intro h a ha b hb
    obtain ⟨c, hc⟩ := List.length_eq_one.mp h
    have ha2 : a ∈ l.dedup := List.mem_dedup.mpr ha
    have hb2 : b ∈ l.dedup := List.mem_dedup.mpr hb
    rw [hc] at ha2 hb2
    simp at ha2 hb2
    rw [ha2, hb2]
  · intro h
    obtain ⟨x, xs, rfl⟩ := List.exists_cons_of_ne_nil hne
    have hxmem : x ∈ (x :: xs).dedup := List.mem_dedup.mpr (by simp)
    have hall : ∀ y ∈ (x :: xs).dedup, y = x :=
      fun y hy => h y (List.mem_dedup.mp hy) x (by simp)
    have hnd := List.nodup_dedup (x :: xs)
    cases hd : (x :: xs).dedup with
    | nil => rw [hd] at hxmem; simp at hxmem
    | cons a t =>
      cases t with
      | nil => simp [hd]
      | cons b t2 =>
        rw [hd] at hall hnd
        have ha : a = x := hall a (by simp)
        have hb : b = x := hall b (by simp)
        rw [List.nodup_cons] at hnd
        exact absurd (by simp [ha, hb] : a ∈ b :: t2) hnd.1

/-- Resizing produces an image whose height is the requested height. -/
theorem resize_height (img : Img) (sz : Nat × Nat) (f : PILFilter) :
    (Img.resize img sz f).height = sz.2 := by
  simp [Img.resize, Img.height]

/-- Resizing to a positive height produces rows of the requested width. -/
theorem resize_width (img : Img) (sz : Nat × Nat) (f : PILFilter)
    (h : 0 < sz.2) : (Img.resize img sz f).width = sz.1 := by
  obtain ⟨m, hm⟩ : ∃ m, sz.2 = m + 1 :=
    ⟨sz.2 - 1, (Nat.succ_pred_eq_of_pos h).symm⟩
  simp [Img.resize, Img.width, hm, List.range_succ_eq_map]

/-- The frame of an image has one row per pixel row. -/
theorem frameOf_length (img : Img) : (frameOf img).length = img.height := by
  simp [frameOf, Img.height]

/-- The first frame row of a non-degenerate image has the image's width. -/
theorem frameOf_headD_length (img : Img) (h : 0 < img.height) :
    ((frameOf img).headD []).length = img.width := by
  cases hp : img.pix with
  | nil => simp [Img.height, hp] at h
  | cons r rest => simp [frameOf, Img.width, hp]

/-- The first pixel of a non-degenerate image maps to the three channels. -/
theorem frameOf_head_head_length (img : Img) (hh : 0 < img.height)
    (hw : 0 < img.width) :
    (((frameOf img).headD []).headD []).length = 3 := by
  cases hp : img.pix with
  | nil => simp [Img.height, hp] at hh
  | cons r rest =>
    cases hr : r with
    | nil => rw [Img.width, hp] at hw; simp [hr] at hw
    | cons p ps => simp [frameOf, hp, hr]

/-- After successful normalization and resolution, `load` is the batch
assembly paired with the always-unresized tensor list and the names. -/
theorem load_ok_unfold (host : Host) (images : PyVal) (r : Bool) (mode : String)
    (names : List String) (pil_images : List Img)
    (hn : normalizeImages images = .ok names)
    (hr : resolveAll host names = .ok pil_images) :
    load host images r mode =
      match buildBatch pil_images (pil_images.map pil_to_comfy_tensor) r mode with
      | .error e => .error e
      | .ok b => .ok (b, pil_images.map pil_to_comfy_tensor, names) := by
  simp only [load, hn, hr]

/-- With at least two images and resizing enabled, the batch is every image
resized to the first image's size (then converted), concatenated. -/
theorem buildBatch_resize (img0 : Img) (rest : List Img)
    (image_list : List Tensor) (mode : String) (hlen : rest ≠ []) :
    buildBatch (img0 :: rest) image_list true mode =
      .ok ((img0 :: rest).map (fun img => frameOf (resize_pil img img0.size mode))) := by
  have h1 : ((img0 :: rest).length == 1) = false := by
    cases rest with
    | nil => exact absurd rfl hlen
    | cons b t => simp [List.length_cons]
  simp only [buildBatch, h1, Bool.false_eq_true, if_false, if_true]
  rw [List.map_map]
  rw [show (pil_to_comfy_tensor ∘ fun img => resize_pil img img0.size mode)
        = (fun img => [frameOf (resize_pil img img0.size mode)]) from rfl]
  rw [flatten_map_singleton]

/-- With at least two images and resizing disabled, the batch is the direct
concatenation when all `(shape[1], shape[2])` pairs agree, and the
documented `ValueError` otherwise. -/
theorem buildBatch_noresize (pil_images : List Img) (image_list : List Tensor)
    (mode : String) (hlen : pil_images.length ≠ 1) :
    buildBatch pil_images image_list false mode =
      (if (image_list.map (fun t => (t.shape1, t.shape2))).dedup.length ≠ 1 then
        .error (.valueError mismatchMsg)
      else .ok image_list.flatten) := by
  have h1 : (pil_images.length == 1) = false := by
    simpa using hlen
  simp only [buildBatch, h1, Bool.false_eq_true, if_false]
  by_cases hd : (image_list.map fun t => (t.shape1, t.shape2)).dedup.length = 1
  · simp [hd]
  · simp [hd]

/-- Any string occurs as a substring of a string built around it. -/
theorem containsSub_append (a n b : String) : containsSub (a ++ n ++ b) n = true := by
  unfold containsSub
  rw [List.any_eq_true]
  refine ⟨a.length, ?_, ?_⟩
  · rw [List.mem_range]
    have h : (a ++ n ++ b).length = a.length + n.length + b.length := by
      simp [String.length_append]
    omega
  · have hd : (a ++ n ++ b).data = a.data ++ (n.data ++ b.data) := by
      simp [String.data_append, List.append_assoc]
    have hlen : a.length = a.data.length := rfl
    rw [hd, hlen, List.drop_left, List.isPrefixOf_iff_prefix]
    exact List.prefix_append _ _

/-- C8: the resizer maps the four documented mode names to the corresponding
resampling filters, any other mode string selects the LANCZOS filter (the
permissive fallback, raising no error — `resize_pil` is a total function),
and `resize_pil` resizes with exactly the selected filter. -/
theorem spec_C8_resize_mode_mapping :
    selectedFilter "nearest" = PILFilter.NEAREST
    ∧ selectedFilter "bilinear" = PILFilter.BILINEAR
    ∧ selectedFilter "bicubic" = PILFilter.BICUBIC
    ∧ selectedFilter "lanczos" = PILFilter.LANCZOS
    ∧ (∀ mode : String,
        mode ∉ ["nearest", "bilinear", "bicubic", "lanczos"] →
        selectedFilter mode = PILFilter.LANCZOS)
    ∧ (∀ (img : Img) (sz : Nat × Nat) (mode : String),
        resize_pil img sz mode = Img.resize img sz (selectedFilter mode)) := by
  refine ⟨rfl, rfl, rfl, rfl, ?_, fun img sz mode => rfl⟩
  intro mode h
  simp only [List.mem_cons, List.not_mem_nil, or_false, not_or] at h
  obtain ⟨h1, h2, h3, h4⟩ := h
  have b1 : (mode == "nearest") = false := beq_eq_false_iff_ne.mpr h1
  have b2 : (mode == "bilinear") = false := beq_eq_false_iff_ne.mpr h2
  have b3 : (mode == "bicubic") = false := beq_eq_false_iff_ne.mpr h3
  have b4 : (mode == "lanczos") = false := beq_eq_false_iff_ne.mpr h4
  simp [selectedFilter, resampleTable, List.lookup, b1, b2, b3, b4]

/-- C8 witness: the unrecognized mode name "box" silently selects LANCZOS. -/
theorem spec_C8_resize_mode_mapping_witness :
    selectedFilter "box" = PILFilter.LANCZOS :=
  spec_C8_resize_mode_mapping.2.2.2.2.1 "box" (by simp)

/-- C3 (amended): path resolution uses the annotated filepath first; if that
path does not exist but the filename joined under the input directory does,
resolution (and a load through it) still succeeds with the fallback path;
if neither exists it raises a file-not-found error whose message names the
filename and the first attempted (annotated) path — not both attempted
paths. -/
theorem spec_C3_path_resolution (host : Host) (name : String) :
    (∀ img, host.fs (host.annotated name) = some img →
      resolveOne host name = .ok img)
    ∧ (∀ img, host.fs (host.annotated name) = Option.none →
        host.fs (joinPath host.inputDir name) = some img →
        resolveOne host name = .ok img)
    ∧ (host.fs (host.annotated name) = Option.none →
       host.fs (joinPath host.inputDir name) = Option.none →
       resolveOne host name =
         .error (.fileNotFoundError (fileNotFoundMsg name (host.annotated name)))
       ∧ containsSub (fileNotFoundMsg name (host.annotated name)) name = true
       ∧ containsSub (fileNotFoundMsg name (host.annotated name))
           (host.annotated name) = true)
    ∧ (∀ img (r : Bool) (m : String), host.fs (host.annotated name) = Option.none →
        host.fs (joinPath host.inputDir name) = some img →
        load host (PyVal.list [PyVal.str name]) r m =
          .ok (pil_to_comfy_tensor img, [pil_to_comfy_tensor img], [name])) := by
  refine ⟨?_, ?_, ?_, ?_⟩
  · intro img h1
    simp [resolveOne, h1]
  · intro img h1 h2
    simp [resolveOne, h1, h2]
  · intro h1 h2
    refine ⟨by simp [resolveOne, h1, h2], ?_, ?_⟩
    · have he0 : fileNotFoundMsg name (host.annotated name)
          = "Image not found: " ++ name
            ++ (" (looked for " ++ host.annotated name ++ ")") := by
        simp [fileNotFoundMsg, String.append_assoc]
      rw [he0]
      exact containsSub_append _ _ _
    · have he : fileNotFoundMsg name (host.annotated name)
          = ("Image not found: " ++ name ++ " (looked for ")
            ++ host.annotated name ++ ")" := by
        simp [fileNotFoundMsg, String.append_assoc]
      rw [he]
      exact containsSub_append _ _ _
  · intro img r m h1 h2
    have hro : resolveOne host name = .ok img := by simp [resolveOne, h1, h2]
    have hra : resolveAll host [name] = .ok [img] := by
      simp [resolveAll, hro]
    have hn : normalizeImages (PyVal.list [PyVal.str name]) = .ok [name] := rfl
    rw [load_ok_unfold host _ r m [name] [img] hn hra]
    simp [buildBatch]

/-- C3 counterexample: with neither candidate path existing for
`missing.png`, the raised message names the filename and the annotated path
but does NOT contain the second attempted (fallback) path `/inp/missing.png`,
contradicting “names … both attempted paths”. -/
theorem spec_C3_counterexample :
    demoHost.fs (demoHost.annotated "missing.png") = Option.none
    ∧ demoHost.fs (joinPath demoHost.inputDir "missing.png") = Option.none
    ∧ joinPath demoHost.inputDir "missing.png" = "/inp/missing.png"
    ∧ resolveOne demoHost "missing.png" =
        .error (.fileNotFoundError
          "Image not found: missing.png (looked for /anno/missing.png)")
    ∧ containsSub "Image not found: missing.png (looked for /anno/missing.png)"
        "/inp/missing.png" = false := by
  exact ⟨rfl, rfl, rfl, rfl, by decide⟩

/-- C3 witness: `b.png` exists only under the fallback input directory of
`demoHost`, and both the resolver and a full load succeed on it. -/
theorem spec_C3_path_resolution_witness :
    resolveOne demoHost "b.png" = .ok imgB
    ∧ load demoHost (PyVal.list [PyVal.str "b.png"]) true "lanczos" =
        .ok (pil_to_comfy_tensor imgB, [pil_to_comfy_tensor imgB], ["b.png"]) :=
  ⟨(spec_C3_path_resolution demoHost "b.png").2.1 imgB rfl rfl,
   (spec_C3_path_resolution demoHost "b.png").2.2.2 imgB true "lanczos" rfl rfl⟩

/-- C6: for every well-formed decoded image with byte channels, the tensor
converter produces a tensor of shape `(1, height, width, 3)` whose every
value is some integer channel value (0–255) divided by 255, hence lies in
`[0, 1]`. -/
theorem spec_C6_tensor_conversion (img : Img) (hwf : img.WF) (hb : img.Byte) :
    Tensor.shape (pil_to_comfy_tensor img) = (1, img.height, img.width, 3)
    ∧ ∀ frame ∈ pil_to_comfy_tensor img, ∀ row ∈ frame, ∀ px ∈ row, ∀ q ∈ px,
        (∃ c : Nat, c ≤ 255 ∧ q = (c : ℚ) / 255) ∧ 0 ≤ q ∧ q ≤ 1 := by
  obtain ⟨hh, hw, -⟩ := hwf
  constructor
  · show (1, (frameOf img).length, ((frameOf img).headD []).length,
        (((frameOf img).headD []).headD []).length) = _
    rw [frameOf_length, frameOf_headD_length img hh,
      frameOf_head_head_length img hh hw]
  · intro frame hf row hrow px hpx q hq
    rw [pil_to_comfy_tensor, List.mem_singleton] at hf
    subst hf
    rw [frameOf, List.mem_map] at hrow
    obtain ⟨r0, hr0, rfl⟩ := hrow
    rw [List.mem_map] at hpx
    obtain ⟨p, hp, rfl⟩ := hpx
    have hbp := hb r0 hr0 p hp
    have hval : ∀ c : Nat, c ≤ 255 →
        (∃ c2 : Nat, c2 ≤ 255 ∧ (c : ℚ) / 255 = (c2 : ℚ) / 255)
        ∧ 0 ≤ (c : ℚ) / 255 ∧ (c : ℚ) / 255 ≤ 1 := by
      intro c hc
      refine ⟨⟨c, hc, rfl⟩, by positivity, ?_⟩
      rw [div_le_one (by norm_num)]
      exact_mod_cast hc
    simp only [List.mem_cons, List.not_mem_nil, or_false] at hq
    rcases hq with rfl | rfl | rfl
    · exact hval p.r hbp.1
    · exact hval p.g hbp.2.1
    · exact hval p.b hbp.2.2

/-- C6 witness: the 2×2 solid-colour image `(10, 20, 30)` yields the tensor
of shape `(1, 2, 2, 3)` whose every pixel is `(channel/255)`, with batch
dimension 1. -/
theorem spec_C6_tensor_conversion_witness :
    pil_to_comfy_tensor imgA =
      [[[[10/255, 20/255, 30/255], [10/255, 20/255, 30/255]],
        [[10/255, 20/255, 30/255], [10/255, 20/255, 30/255]]]]
    ∧ Tensor.shape (pil_to_comfy_tensor imgA) = (1, 2, 2, 3)
    ∧ ∀ frame ∈ pil_to_comfy_tensor imgA, ∀ row ∈ frame, ∀ px ∈ row, ∀ q ∈ px,
        (∃ c : Nat, c ≤ 255 ∧ q = (c : ℚ) / 255) ∧ 0 ≤ q ∧ q ≤ 1 :=
  ⟨by norm_num [pil_to_comfy_tensor, frameOf, imgA],
   (spec_C6_tensor_conversion imgA
     (by unfold Img.WF; decide) (by unfold Img.Byte; decide)).1,
   (spec_C6_tensor_conversion imgA
     (by unfold Img.WF; decide) (by unfold Img.Byte; decide)).2⟩

/-- C1: with at least two filenames and `resize_to_first` enabled, every
image — the first included — is resized to the first image's `(width,
height)` with the configured mode; the batch is their conversion
concatenated along the batch axis, with batch dimension `N` and spatial
dimensions the first image's original `(height, width)`, whatever the other
images' sizes. -/
theorem spec_C1_resize_to_first (host : Host) (images : PyVal) (mode : String)
    (names : List String) (pil_images : List Img) (img0 : Img) (rest : List Img)
    (hn : normalizeImages images = .ok names)
    (hr : resolveAll host names = .ok pil_images)
    (hlen : 2 ≤ names.length)
    (hp : pil_images = img0 :: rest)
    (hh : 0 < img0.height) (hw : 0 < img0.width) :
    load host images true mode =
      .ok ((img0 :: rest).map (fun img => frameOf (resize_pil img img0.size mode)),
           (img0 :: rest).map pil_to_comfy_tensor, names)
    ∧ Tensor.shape
        ((img0 :: rest).map (fun img => frameOf (resize_pil img img0.size mode)))
        = (names.length, img0.height, img0.width, 3) := by
  subst hp
  have hlen2 : (img0 :: rest).length = names.length :=
    resolveAll_length _ _ _ hr
  have hrne : rest ≠ [] := by
    intro hc
    rw [hc] at hlen2
    simp at hlen2
    omega
  rw [load_ok_unfold host images true mode names _ hn hr,
      buildBatch_resize img0 rest _ mode hrne]
  refine ⟨rfl, ?_⟩
  have hrh : (resize_pil img0 img0.size mode).height = img0.height :=
    resize_height _ _ _
  have hrw : (resize_pil img0 img0.size mode).width = img0.width :=
    resize_width _ _ _ hh
  simp only [List.map_cons, Tensor.shape, List.headD_cons, List.length_cons]
  rw [frameOf_length, hrh,
      frameOf_headD_length _ (by rw [hrh]; exact hh), hrw,
      frameOf_head_head_length _ (by rw [hrh]; exact hh) (by rw [hrw]; exact hw)]
  rw [List.length_cons] at hlen2
  simp [List.length_map, hlen2]

/-- C1 witness: a 2×2 first image and a 1×1 second image, resized batch of
shape `(2, 2, 2, 3)` — the first image's original height and width. -/
theorem spec_C1_resize_to_first_witness :
    load demoHost (PyVal.list [PyVal.str "a.png", PyVal.str "b.png"]) true "lanczos" =
      .ok ([imgA, imgB].map (fun img => frameOf (resize_pil img imgA.size "lanczos")),
           [imgA, imgB].map pil_to_comfy_tensor, ["a.png", "b.png"])
    ∧ Tensor.shape
        ([imgA, imgB].map (fun img => frameOf (resize_pil img imgA.size "lanczos")))
        = (2, 2, 2, 3) :=
  spec_C1_resize_to_first demoHost _ "lanczos" ["a.png", "b.png"] [imgA, imgB]
    imgA [imgB] rfl rfl (by decide) rfl (by decide) (by decide)

/-- C2: with more than one well-formed image and `resize_to_first` disabled,
if the decoded images' `(height, width)` pairs are not all identical the
load raises exactly the documented `ValueError` (returning nothing), and if
they are all identical it concatenates the per-image tensors along the
batch axis. -/
theorem spec_C2_no_resize (host : Host) (images : PyVal) (mode : String)
    (names : List String) (pil_images : List Img)
    (hn : normalizeImages images = .ok names)
    (hr : resolveAll host names = .ok pil_images)
    (hlen : 2 ≤ names.length)
    (hwf : ∀ i ∈ pil_images, i.WF) :
    (¬ (∀ a ∈ pil_images, ∀ b ∈ pil_images,
          (a.height, a.width) = (b.height, b.width)) →
      load host images false mode = .error (.valueError mismatchMsg))
    ∧ ((∀ a ∈ pil_images, ∀ b ∈ pil_images,
          (a.height, a.width) = (b.height, b.width)) →
      load host images false mode =
        .ok ((pil_images.map pil_to_comfy_tensor).flatten,
             pil_images.map pil_to_comfy_tensor, names))
    ∧ mismatchMsg =
        "Images have different sizes; enable resize_to_first=True or use the image_list output." := by
  have hlen2 : pil_images.length = names.length := resolveAll_length _ _ _ hr
  have hne : pil_images ≠ [] := by
    intro hc
    rw [hc] at hlen2
    simp at hlen2
    omega
  have hmapeq : (pil_images.map pil_to_comfy_tensor).map
        (fun t => (t.shape1, t.shape2))
      = pil_images.map (fun i => (i.height, i.width)) := by
    rw [List.map_map]
    apply List.map_congr_left
    intro i hi
    obtain ⟨hh, -, -⟩ := hwf i hi
    show ((pil_to_comfy_tensor i).shape1, (pil_to_comfy_tensor i).shape2)
      = (i.height, i.width)
    rw [Tensor.shape1, Tensor.shape2, pil_to_comfy_tensor, List.headD_cons,
        frameOf_length, frameOf_headD_length i hh]
  have hnee : (pil_images.map pil_to_comfy_tensor).map
      (fun t => (t.shape1, t.shape2)) ≠ [] := by
    rw [hmapeq]
    exact fun hc => hne (List.map_eq_nil_iff.mp hc)
  have hiff := dedup_length_one_iff _ hnee
  have hcond : (∀ x ∈ (pil_images.map pil_to_comfy_tensor).map
        (fun t => (t.shape1, t.shape2)),
        ∀ y ∈ (pil_images.map pil_to_comfy_tensor).map
        (fun t => (t.shape1, t.shape2)), x = y) ↔
      (∀ a ∈ pil_images, ∀ b ∈ pil_images,
        (a.height, a.width) = (b.height, b.width)) := by
    rw [hmapeq]
    constructor
    · intro h a ha b hb
      exact h _ (List.mem_map_of_mem _ ha) _ (List.mem_map_of_mem _ hb)
    · intro h x hx y hy
      obtain ⟨a, ha, rfl⟩ := List.mem_map.mp hx
      obtain ⟨b, hb, rfl⟩ := List.mem_map.mp hy
      exact h a ha b hb
  have hb := buildBatch_noresize pil_images (pil_images.map pil_to_comfy_tensor)
    mode (by omega)
  refine ⟨?_, ?_, rfl⟩
  · intro hnc
    have hdd : ((pil_images.map pil_to_comfy_tensor).map
        (fun t => (t.shape1, t.shape2))).dedup.length ≠ 1 :=
      fun h1 => hnc (hcond.mp (hiff.mp h1))
    rw [load_ok_unfold host images false mode names pil_images hn hr, hb,
        if_pos hdd]
  · intro hcap
    have hdd : ((pil_images.map pil_to_comfy_tensor).map
        (fun t => (t.shape1, t.shape2))).dedup.length = 1 :=
      hiff.mpr (hcond.mpr hcap)
    rw [load_ok_unfold host images false mode names pil_images hn hr, hb,
        if_neg (fun hcon => hcon hdd)]

/-- C2 witness: mismatched 2×2 and 1×1 images raise the documented
`ValueError` with no output, while two equally-sized images concatenate. -/
theorem spec_C2_no_resize_witness :
    load demoHost (PyVal.list [PyVal.str "a.png", PyVal.str "b.png"]) false "lanczos"
      = .error (.valueError mismatchMsg)
    ∧ load demoHost (PyVal.list [PyVal.str "a.png", PyVal.str "c.png"]) false "lanczos"
      = .ok (([imgA, imgC].map pil_to_comfy_tensor).flatten,
             [imgA, imgC].map pil_to_comfy_tensor, ["a.png", "c.png"]) :=
  ⟨(spec_C2_no_resize demoHost
      (PyVal.list [PyVal.str "a.png", PyVal.str "b.png"])
      "lanczos" ["a.png", "b.png"] [imgA, imgB]
      rfl rfl (by decide)
      (by
        intro i hi
        simp only [List.mem_cons, List.not_mem_nil, or_false] at hi
        rcases hi with rfl | rfl
        · unfold Img.WF; decide
        · unfold Img.WF; decide)).1
    (by unfold Img.height Img.width; decide),
   (spec_C2_no_resize demoHost
      (PyVal.list [PyVal.str "a.png", PyVal.str "c.png"])
      "lanczos" ["a.png", "c.png"] [imgA, imgC]
      rfl rfl (by decide)
      (by
        intro i hi
        simp only [List.mem_cons, List.not_mem_nil, or_false] at hi
        rcases hi with rfl | rfl
        · unfold Img.WF; decide
        · unfold Img.WF; decide)).2.1
    (by unfold Img.height Img.width; decide)⟩

/-- C4 (amended): a `None` widget value raises the dedicated `ValueError`;
an empty normalized filename list also never returns output, but fails with
an `IndexError` (from `pil_images[0]`) when `resize_to_first` is enabled
and with the mismatched-sizes `ValueError` when it is disabled — not with a
no-images value error. -/
theorem spec_C4_no_images (host : Host) (mode : String) :
    (∀ r : Bool, load host PyVal.none r mode = .error (.valueError noImagesMsg))
    ∧ (∀ images : PyVal, normalizeImages images = .ok [] →
        load host images true mode = .error (.indexError "list index out of range")
        ∧ load host images false mode = .error (.valueError mismatchMsg)) := by
  refine ⟨fun r => rfl, ?_⟩
  intro images hn
  have hra : resolveAll host ([] : List String) = .ok [] := rfl
  constructor
  · rw [load_ok_unfold host images true mode [] [] hn hra]
    rfl
  · rw [load_ok_unfold host images false mode [] [] hn hra]
    rfl

/-- C4 counterexample: the empty list input under the default
`resize_to_first=True` fails with an `IndexError`, which is not a value
error, falsifying “fails with a value error” for the empty-list case. -/
theorem spec_C4_counterexample :
    load demoHost (PyVal.list []) true "lanczos"
      = .error (.indexError "list index out of range")
    ∧ raisedValueError (load demoHost (PyVal.list []) true "lanczos") = false :=
  ⟨rfl, rfl⟩

/-- C4 witness: concrete no-image inputs for all three failure shapes. -/
theorem spec_C4_no_images_witness :
    load demoHost PyVal.none true "lanczos" = .error (.valueError noImagesMsg)
    ∧ load demoHost (PyVal.list []) true "lanczos"
        = .error (.indexError "list index out of range")
    ∧ load demoHost (PyVal.list []) false "lanczos"
        = .error (.valueError mismatchMsg) :=
  ⟨(spec_C4_no_images demoHost "lanczos").1 true,
   ((spec_C4_no_images demoHost "lanczos").2 (PyVal.list []) rfl).1,
   ((spec_C4_no_images demoHost "lanczos").2 (PyVal.list []) rfl).2⟩

/-- Any string occurs as a substring of a string it ends. -/
theorem containsSub_suffix (a n : String) : containsSub (a ++ n) n = true := by
  unfold containsSub
  rw [List.any_eq_true]
  refine ⟨a.length, ?_, ?_⟩
  · rw [List.mem_range]
    have h : (a ++ n).length = a.length + n.length := by
      simp [String.length_append]
    omega
  · have hd : (a ++ n).data = a.data ++ n.data := by
      simp [String.data_append]
    have hlen : a.length = a.data.length := rfl
    rw [hd, hlen, List.drop_left, List.isPrefixOf_iff_prefix]

/-- C5 (amended): the normalizer strips a string input for the bracket
test, and a JSON-array string normalizes exactly like the corresponding
list; but a non-bracketed string is wrapped as a one-element list of the
ORIGINAL (unstripped) string, not the trimmed filename; a final value that
is not a list of strings raises a type error whose message includes the
actual type and value. -/
theorem spec_C5_normalization :
    (∀ s : String,
      (strStartsWith (pyStrip s) "[" && strEndsWith (pyStrip s) "]") = false →
      normalizeImages (PyVal.str s) = .ok [s])
    ∧ normalizeImages (PyVal.str "[\"a.png\",\"b.png\"]")
        = normalizeImages (PyVal.list [PyVal.str "a.png", PyVal.str "b.png"])
    ∧ normalizeImages (PyVal.str "[\"a.png\",\"b.png\"]") = .ok ["a.png", "b.png"]
    ∧ (∀ v : PyVal, asStringList v = Option.none → v ≠ PyVal.none →
        (∀ s, v ≠ PyVal.str s) →
        normalizeImages v = .error (.typeError (typeErrMsg v)))
    ∧ (∀ v : PyVal, containsSub (typeErrMsg v) v.typeName = true
        ∧ containsSub (typeErrMsg v) v.pyrepr = true) := by
  refine ⟨?_, rfl, rfl, ?_, ?_⟩
  · intro s h
    simp only [normalizeImages, h, Bool.false_eq_true, if_false]
    rfl
  · intro v h hnone hstr
    cases v with
    | none => exact absurd rfl hnone
    | str s => exact absurd rfl (hstr s)
    | int n => simp [normalizeImages, checkList, h]
    | list xs => simp [normalizeImages, checkList, h]
  · intro v
    constructor
    · have he : typeErrMsg v
          = "`images` must be a list[str] (or JSON string). Got: "
            ++ v.typeName ++ (" " ++ v.pyrepr) := by
        simp [typeErrMsg, String.append_assoc]
      rw [he]
      exact containsSub_append _ _ _
    · exact containsSub_suffix _ _

/-- C5 counterexample: the input `" a.png "` (whitespace around a plain
filename) normalizes to the one-element list of the UNtrimmed string, not
of the trimmed filename `"a.png"` the claim requires. -/
theorem spec_C5_counterexample :
    normalizeImages (PyVal.str " a.png ") = .ok [" a.png "]
    ∧ pyStrip " a.png " = "a.png"
    ∧ (" a.png " : String) ≠ "a.png"
    ∧ normalizeImages (PyVal.str " a.png ") ≠ .ok ["a.png"] :=
  ⟨rfl, rfl, by decide, by
    intro h
    have h2 : ([" a.png "] : List String) = ["a.png"] := Except.ok.inj h
    exact absurd (List.cons.inj h2).1 (by decide)⟩

/-- C5 witness: a plain filename string wraps unchanged, and a non-list
input raises the type error carrying its type and value. -/
theorem spec_C5_normalization_witness :
    normalizeImages (PyVal.str "a.png") = .ok ["a.png"]
    ∧ normalizeImages (PyVal.int 7)
        = .error (.typeError (typeErrMsg (PyVal.int 7))) :=
  ⟨spec_C5_normalization.1 "a.png" rfl,
   spec_C5_normalization.2.2.2.1 (PyVal.int 7) rfl
     (fun h => PyVal.noConfusion h) (fun _ h => PyVal.noConfusion h)⟩

/-- C7: when normalization yields exactly one filename, the batch is the
sole element of the per-image list, unresized, and the whole result is the
same for every `resize_to_first` / `resize_mode` setting. -/
theorem spec_C7_single_image (host : Host) (images : PyVal) (r : Bool)
    (mode : String) (b : Tensor) (lst : List Tensor) (ns : List String)
    (h : load host images r mode = .ok (b, lst, ns))
    (h1 : ns.length = 1) :
    lst = [b] ∧ ∀ (r2 : Bool) (m2 : String),
      load host images r2 m2 = .ok (b, lst, ns) := by
  cases hn : normalizeImages images with
  | error e => simp [load, hn] at h
  | ok names =>
    cases hr : resolveAll host names with
    | error e => simp [load, hn, hr] at h
    | ok pil_images =>
      rw [load_ok_unfold host images r mode names pil_images hn hr] at h
      cases hbb : buildBatch pil_images (pil_images.map pil_to_comfy_tensor) r mode with
      | error e => rw [hbb] at h; simp at h
      | ok batch =>
        rw [hbb] at h
        simp only [Except.ok.injEq, Prod.mk.injEq] at h
        obtain ⟨hb, hl, hns⟩ := h
        subst hb hl hns
        have hlen2 : pil_images.length = names.length :=
          resolveAll_length _ _ _ hr
        rw [h1] at hlen2
        obtain ⟨img, rfl⟩ := List.length_eq_one.mp hlen2
        have hone : buildBatch [img] ([img].map pil_to_comfy_tensor) r mode
            = .ok (pil_to_comfy_tensor img) := rfl
        rw [hone] at hbb
        have hbatch : batch = pil_to_comfy_tensor img := (Except.ok.inj hbb).symm
        subst hbatch
        refine ⟨rfl, ?_⟩
        intro r2 m2
        rw [load_ok_unfold host images r2 m2 names [img] hn hr]
        rfl

/-- C7 witness: a single filename loads to identical batch and sole list
element under any settings. -/
theorem spec_C7_single_image_witness :
    [pil_to_comfy_tensor imgA] = [pil_to_comfy_tensor imgA]
    ∧ ∀ (r2 : Bool) (m2 : String),
        load demoHost (PyVal.str "a.png") r2 m2 =
          .ok (pil_to_comfy_tensor imgA, [pil_to_comfy_tensor imgA], ["a.png"]) :=
  spec_C7_single_image demoHost (PyVal.str "a.png") true "lanczos"
    (pil_to_comfy_tensor imgA) [pil_to_comfy_tensor imgA] ["a.png"] rfl rfl

/-- C9: two successful runs over the same widget value that differ only in
the resize settings agree on the per-image tensor list and on the names
output; the list is always the unresized per-image tensors and the names
are the post-normalization filenames passed through unchanged. -/
theorem spec_C9_settings_independence (host : Host) (images : PyVal)
    (r1 : Bool) (m1 : String) (r2 : Bool) (m2 : String)
    (b1 : Tensor) (l1 : List Tensor) (n1 : List String)
    (b2 : Tensor) (l2 : List Tensor) (n2 : List String)
    (h1 : load host images r1 m1 = .ok (b1, l1, n1))
    (h2 : load host images r2 m2 = .ok (b2, l2, n2)) :
    l1 = l2 ∧ n1 = n2
    ∧ normalizeImages images = .ok n1
    ∧ ∃ pil_images, resolveAll host n1 = .ok pil_images
        ∧ l1 = pil_images.map pil_to_comfy_tensor := by
  cases hn : normalizeImages images with
  | error e => simp [load, hn] at h1
  | ok names =>
    cases hr : resolveAll host names with
    | error e => simp [load, hn, hr] at h1
    | ok pil_images =>
      rw [load_ok_unfold host images r1 m1 names pil_images hn hr] at h1
      rw [load_ok_unfold host images r2 m2 names pil_images hn hr] at h2
      cases hbb1 : buildBatch pil_images (pil_images.map pil_to_comfy_tensor) r1 m1 with
      | error e => rw [hbb1] at h1; simp at h1
      | ok batch1 =>
        cases hbb2 : buildBatch pil_images (pil_images.map pil_to_comfy_tensor) r2 m2 with
        | error e => rw [hbb2] at h2; simp at h2
        | ok batch2 =>
          rw [hbb1] at h1
          rw [hbb2] at h2
          simp only [Except.ok.injEq, Prod.mk.injEq] at h1 h2
          obtain ⟨-, hl1, hn1⟩ := h1
          obtain ⟨-, hl2, hn2⟩ := h2
          subst hl1 hn1 hl2 hn2
          exact ⟨rfl, rfl, rfl, pil_images, hr, rfl⟩

/-- C9 witness: runs with `(true, "lanczos")` and `(false, "nearest")` over
the same two same-size files share list and names outputs. -/
theorem spec_C9_settings_independence_witness :
    [imgA, imgC].map pil_to_comfy_tensor = [imgA, imgC].map pil_to_comfy_tensor
    ∧ (["a.png", "c.png"] : List String) = ["a.png", "c.png"]
    ∧ normalizeImages (PyVal.list [PyVal.str "a.png", PyVal.str "c.png"])
        = .ok ["a.png", "c.png"]
    ∧ ∃ pil_images, resolveAll demoHost ["a.png", "c.png"] = .ok pil_images
        ∧ [imgA, imgC].map pil_to_comfy_tensor
            = pil_images.map pil_to_comfy_tensor :=
  spec_C9_settings_independence demoHost
    (PyVal.list [PyVal.str "a.png", PyVal.str "c.png"])
    true "lanczos" false "nearest"
    ([imgA, imgC].map (fun img => frameOf (resize_pil img imgA.size "lanczos")))
    ([imgA, imgC].map pil_to_comfy_tensor) ["a.png", "c.png"]
    (([imgA, imgC].map pil_to_comfy_tensor).flatten)
    ([imgA, imgC].map pil_to_comfy_tensor) ["a.png", "c.png"]
    rfl rfl

/-- Mapping commutes with positional default access inside the bounds. -/
theorem getD_map {α β : Type} (f : α → β) (l : List α) (i : Nat) (d : α)
    (d2 : β) (hi : i < l.length) :
    (l.map f).getD i d2 = f (l.getD i d) := by
  rw [List.getD_eq_getElem _ _ (by simpa using hi),
      List.getD_eq_getElem _ _ hi, List.getElem_map]

/-- C10: input order is preserved across all three outputs — the names are
the normalized input, and for each index `i` the i-th list element is the
tensor of the image resolved from the i-th filename, while the i-th batch
slice is that image's frame, either unresized or resized to the first
image's size. -/
theorem spec_C10_order_preserved (host : Host) (images : PyVal) (r : Bool)
    (mode : String) (b : Tensor) (lst : List Tensor) (ns : List String)
    (h : load host images r mode = .ok (b, lst, ns)) :
    normalizeImages images = .ok ns
    ∧ lst.length = ns.length ∧ b.length = ns.length
    ∧ ∃ pil_images, resolveAll host ns = .ok pil_images
      ∧ lst = pil_images.map pil_to_comfy_tensor
      ∧ ∀ i, i < ns.length →
          resolveOne host (ns.getD i "") = .ok (pil_images.getD i ⟨[]⟩)
          ∧ lst.getD i [] = pil_to_comfy_tensor (pil_images.getD i ⟨[]⟩)
          ∧ (b.getD i [] = frameOf (pil_images.getD i ⟨[]⟩)
             ∨ b.getD i [] = frameOf (resize_pil (pil_images.getD i ⟨[]⟩)
                 (pil_images.headD ⟨[]⟩).size mode)) := by
  cases hn : normalizeImages images with
  | error e => simp [load, hn] at h
  | ok names =>
    cases hr : resolveAll host names with
    | error e => simp [load, hn, hr] at h
    | ok pil_images =>
      rw [load_ok_unfold host images r mode names pil_images hn hr] at h
      have hlen2 : pil_images.length = names.length :=
        resolveAll_length _ _ _ hr
      cases hbb : buildBatch pil_images (pil_images.map pil_to_comfy_tensor) r mode with
      | error e => rw [hbb] at h; simp at h
      | ok batch =>
        rw [hbb] at h
        simp only [Except.ok.injEq, Prod.mk.injEq] at h
        obtain ⟨hb, hl, hns⟩ := h
        subst hb hl hns
        refine ⟨rfl, by simp [hlen2], ?_, pil_images, hr, rfl, ?_⟩
        · -- batch length equals the number of names, in every branch
          unfold buildBatch at hbb
          by_cases h1 : pil_images.length = 1
          · rw [if_pos (by simpa using h1)] at hbb
            obtain ⟨img, rfl⟩ := List.length_eq_one.mp h1
            have : batch = pil_to_comfy_tensor img := by
              simpa using (Except.ok.inj hbb).symm
            subst this
            simp [pil_to_comfy_tensor, ← hlen2]
          · rw [if_neg (by simpa using h1)] at hbb
            cases r with
            | true =>
              simp only [if_true] at hbb
              cases hp : pil_images with
              | nil => rw [hp] at hbb; simp at hbb
              | cons img0 rest =>
                rw [hp] at hbb
                have hbeq : batch = (((img0 :: rest).map
                    (fun img => resize_pil img img0.size mode)).map
                      pil_to_comfy_tensor).flatten := by
                  simpa using (Except.ok.inj hbb).symm
                subst hbeq
                rw [List.map_map,
                    show (pil_to_comfy_tensor ∘ fun img => resize_pil img img0.size mode)
                      = (fun img => [frameOf (resize_pil img img0.size mode)]) from rfl,
                    flatten_map_singleton]
                simp [← hlen2, hp]
            | false =>
              simp only [Bool.false_eq_true, if_false] at hbb
              by_cases hdd : ((pil_images.map pil_to_comfy_tensor).map
                  (fun t => (t.shape1, t.shape2))).dedup.length ≠ 1
              · rw [if_pos (by simpa using hdd)] at hbb
                simp at hbb
              · rw [if_neg (by simpa using hdd)] at hbb
                have hbeq : batch = (pil_images.map pil_to_comfy_tensor).flatten :=
                  (Except.ok.inj hbb).symm
                subst hbeq
                rw [show (pil_to_comfy_tensor : Img → Tensor)
                      = (fun img => [frameOf img]) from rfl,
                    flatten_map_singleton]
                simp [← hlen2]
        · -- positional correspondence
          intro i hi
          have hi2 : i < pil_images.length := by rw [hlen2]; exact hi
          refine ⟨resolveAll_getD host names pil_images hr i hi, ?_, ?_⟩
          · exact getD_map pil_to_comfy_tensor pil_images i ⟨[]⟩ [] hi2
          · unfold buildBatch at hbb
            by_cases h1 : pil_images.length = 1
            · rw [if_pos (by simpa using h1)] at hbb
              obtain ⟨img, rfl⟩ := List.length_eq_one.mp h1
              have hbe : batch = pil_to_comfy_tensor img := by
                simpa using (Except.ok.inj hbb).symm
              subst hbe
              have hz : i = 0 := by simp at hi2; omega
              subst hz
              exact Or.inl rfl
            · rw [if_neg (by simpa using h1)] at hbb
              cases r with
              | true =>
                simp only [if_true] at hbb
                cases hp : pil_images with
                | nil => rw [hp] at hbb; simp at hbb
                | cons img0 rest =>
                  rw [hp] at hbb
                  have hbeq : batch = (((img0 :: rest).map
                      (fun img => resize_pil img img0.size mode)).map
                        pil_to_comfy_tensor).flatten := by
                    simpa using (Except.ok.inj hbb).symm
                  subst hbeq
                  rw [List.map_map,
                      show (pil_to_comfy_tensor ∘ fun img => resize_pil img img0.size mode)
                        = (fun img => [frameOf (resize_pil img img0.size mode)]) from rfl,
                      flatten_map_singleton]
                  refine Or.inr ?_
                  rw [hp] at hi2
                  rw [getD_map _ _ i ⟨[]⟩ [] hi2]
                  simp
              | false =>
                simp only [Bool.false_eq_true, if_false] at hbb
                by_cases hdd : ((pil_images.map pil_to_comfy_tensor).map
                    (fun t => (t.shape1, t.shape2))).dedup.length ≠ 1
                · rw [if_pos (by simpa using hdd)] at hbb
                  simp at hbb
                · rw [if_neg (by simpa using hdd)] at hbb
                  have hbeq : batch = (pil_images.map pil_to_comfy_tensor).flatten :=
                    (Except.ok.inj hbb).symm
                  subst hbeq
                  rw [show (pil_to_comfy_tensor : Img → Tensor)
                        = (fun img => [frameOf img]) from rfl,
                      flatten_map_singleton]
                  exact Or.inl (getD_map frameOf pil_images i ⟨[]⟩ [] hi2)

/-- C10 witness: for the two-image resized load, both outputs line up with
the input order index by index. -/
theorem spec_C10_order_preserved_witness :
    normalizeImages (PyVal.list [PyVal.str "a.png", PyVal.str "b.png"])
      = .ok ["a.png", "b.png"]
    ∧ ([imgA, imgB].map pil_to_comfy_tensor).length = (["a.png", "b.png"] : List String).length
    ∧ ([imgA, imgB].map (fun img => frameOf (resize_pil img imgA.size "lanczos"))).length
        = (["a.png", "b.png"] : List String).length
    ∧ ∃ pil_images, resolveAll demoHost ["a.png", "b.png"] = .ok pil_images
      ∧ [imgA, imgB].map pil_to_comfy_tensor = pil_images.map pil_to_comfy_tensor
      ∧ ∀ i, i < (["a.png", "b.png"] : List String).length →
          resolveOne demoHost ((["a.png", "b.png"] : List String).getD i "")
            = .ok (pil_images.getD i ⟨[]⟩)
          ∧ ([imgA, imgB].map pil_to_comfy_tensor).getD i []
            = pil_to_comfy_tensor (pil_images.getD i ⟨[]⟩)
          ∧ (([imgA, imgB].map (fun img => frameOf (resize_pil img imgA.size "lanczos"))).getD i []
              = frameOf (pil_images.getD i ⟨[]⟩)
             ∨ ([imgA, imgB].map (fun img => frameOf (resize_pil img imgA.size "lanczos"))).getD i []
              = frameOf (resize_pil (pil_images.getD i ⟨[]⟩)
                  (pil_images.headD ⟨[]⟩).size "lanczos")) :=
  spec_C10_order_preserved demoHost
    (PyVal.list [PyVal.str "a.png", PyVal.str "b.png"]) true "lanczos"
    ([imgA, imgB].map (fun img => frameOf (resize_pil img imgA.size "lanczos")))
    ([imgA, imgB].map pil_to_comfy_tensor) ["a.png", "b.png"] rfl
